import Mathlib

/-!
Verification of the betterFFhub normalization / derived-metrics layer.

The definitions below are a shallow embedding of the TypeScript source:
  * `src/app/dashboard/player/[playerId]/page.tsx` — the player page: weekly
    timeline reconstruction, derived metrics (consistency, floor/ceiling,
    vs-projection, beat-projection), season aggregation and the stat
    classification table `STAT_CONFIG`;
  * `src/unnamed/part_001` — the dashboard page: the lineup-slot priority
    table `slotOrder` and the roster sort.

Numbers are modelled as `ℚ` (exact rationals standing for the JS numbers);
`Math.sqrt` is modelled by `Real.sqrt`, so the two consistency-score
definitions live in `ℝ`.  JS records (string-keyed objects) are modelled as
association lists in insertion order, with `alookup` as key lookup; week
identifiers (numeric strings "0", "1", …) are modelled as `ℕ`.  JS
`Array.prototype.sort`, which is stable, is modelled by a stable insertion
sort `sortOn`; a stable sort's output is uniquely determined by the key
function, so this agrees with the engine's sort.
-/

namespace BetterFF

/-- Association-list lookup, mirroring JS object key access (first matching
key wins; JS objects cannot hold duplicate keys). -/
def alookup {α β : Type} [DecidableEq α] : List (α × β) → α → Option β
  | [], _ => none
  | (k, v) :: rest, a => if k = a then some v else alookup rest a

/-- Lookup with numeric default 0, mirroring `obj[k] || 0` on numeric maps. -/
def lookupD (bd : List (String × ℚ)) (k : String) : ℚ :=
  (alookup bd k).getD 0

/-- Interface `PlayerStats` of page.tsx (one week's stat line). -/
structure PlayerStats where
  points : ℚ
  projected_points : ℚ
  avg_points : Option ℚ
  breakdown : List (String × ℚ)
  projected_breakdown : List (String × ℚ)
deriving DecidableEq

/-- Interface `SeasonTotals` of page.tsx. -/
structure SeasonTotals where
  points : ℚ
  projected_points : ℚ
  avg_points : ℚ
  projected_avg_points : ℚ
  breakdown : List (String × ℚ)
  projected_breakdown : List (String × ℚ)
deriving DecidableEq

/-- Interface `ScheduleGame` of page.tsx. -/
structure ScheduleGame where
  team : String
  date : Option String
deriving DecidableEq

/-- Interface `Player` of page.tsx. -/
structure Player where
  name : String
  playerId : Int
  position : String
  posRank : Option Int
  eligibleSlots : List String
  lineupSlot : String
  acquisitionType : Option String
  proTeam : String
  onTeamId : Option Int
  injuryStatus : String
  injured : Bool
  total_points : ℚ
  projected_total_points : ℚ
  avg_points : ℚ
  projected_avg_points : ℚ
  percent_owned : ℚ
  percent_started : ℚ
  stats : List (Nat × PlayerStats)
  seasonTotals : Option SeasonTotals
  schedule : List (Nat × ScheduleGame)
  headshotUrl : Option String
deriving DecidableEq

/-- Interface `LeagueData` of page.tsx (the persisted snapshot as the player
page reads it): rosters keyed by team name, in stored order. -/
structure LeagueData where
  leagueName : String
  leagueId : String
  rosters : List (String × List Player)
deriving DecidableEq

/-- Interface `Player` of the dashboard page (src/unnamed/part_001). -/
structure DashPlayer where
  name : String
  playerId : Int
  position : String
  lineupSlot : String
  proTeam : String
  injuryStatus : String
  total_points : ℚ
  projected_total_points : ℚ
  avg_points : ℚ
  projected_avg_points : ℚ
  percent_owned : ℚ
  percent_started : ℚ
deriving DecidableEq

/-! ### A stable insertion sort

`Array.prototype.sort` with comparator `(a, b) => f(a) - f(b)` is a stable
ascending sort on the key `f`; any stable sort on one key produces the same
list, so we model it by insertion sort. -/

/-- Insert `x` into `l` before the first element whose key is not smaller. -/
def insertOn {α : Type} (f : α → Nat) (x : α) : List α → List α
  | [] => [x]
  | y :: ys => if f x ≤ f y then x :: y :: ys else y :: insertOn f x ys

/-- Stable ascending sort on the key `f`. -/
def sortOn {α : Type} (f : α → Nat) : List α → List α
  | [] => []
  | x :: xs => insertOn f x (sortOn f xs)

theorem insertOn_cons {α : Type} (f : α → Nat) (x y : α) (ys : List α) :
    insertOn f x (y :: ys) =
      if f x ≤ f y then x :: y :: ys else y :: insertOn f x ys := rfl

theorem insertOn_perm {α : Type} (f : α → Nat) (x : α) :
    ∀ l : List α, List.Perm (insertOn f x l) (x :: l) := by
  intro l
  induction l with
  | nil => simp [insertOn]
  | cons y ys ih =>
    by_cases h : f x ≤ f y
    · simp [insertOn, h]
    · simpa [insertOn, h] using (ih.cons y).trans (List.Perm.swap x y ys)

theorem sortOn_perm {α : Type} (f : α → Nat) :
    ∀ l : List α, List.Perm (sortOn f l) l := by
  intro l
  induction l with
  | nil => simp [sortOn]
  | cons x xs ih => exact (insertOn_perm f x (sortOn f xs)).trans (ih.cons x)

theorem mem_insertOn {α : Type} {f : α → Nat} {x a : α} {l : List α} :
    a ∈ insertOn f x l ↔ a = x ∨ a ∈ l := by
  have h := (insertOn_perm f x l).mem_iff (a := a)
  simpa using h

theorem insertOn_pairwise {α : Type} (f : α → Nat) (x : α) :
    ∀ {l : List α}, l.Pairwise (fun a b => f a ≤ f b) →
      (insertOn f x l).Pairwise (fun a b => f a ≤ f b) := by
  intro l
  induction l with
  | nil => intro _; simp [insertOn]
  | cons y ys ih =>
    intro hp
    rcases List.pairwise_cons.mp hp with ⟨hy, hys⟩
    by_cases h : f x ≤ f y
    · rw [insertOn_cons, if_pos h]
      refine List.pairwise_cons.mpr ⟨?_, hp⟩
      intro b hb
      rcases List.mem_cons.mp hb with hb | hb
      · exact hb ▸ h
      · exact le_trans h (hy b hb)
    · have hyx : f y ≤ f x := le_of_not_le h
      rw [insertOn_cons, if_neg h]
      refine List.pairwise_cons.mpr ⟨?_, ih hys⟩
      intro b hb
      rcases mem_insertOn.mp hb with hb | hb
      · exact hb ▸ hyx
      · exact hy b hb

theorem sortOn_pairwise {α : Type} (f : α → Nat) :
    ∀ l : List α, (sortOn f l).Pairwise (fun a b => f a ≤ f b) := by
  intro l
  induction l with
  | nil => simp [sortOn]
  | cons x xs ih => exact insertOn_pairwise f x ih

theorem insertOn_filter_eq {α : Type} (f : α → Nat) (x : α) (k : Nat)
    (h : f x = k) :
    ∀ l : List α, (insertOn f x l).filter (fun a => decide (f a = k)) =
      x :: l.filter (fun a => decide (f a = k)) := by
  intro l
  induction l with
  | nil => simp [insertOn, h]
  | cons y ys ih =>
    by_cases hxy : f x ≤ f y
    · rw [insertOn_cons, if_pos hxy]
      simp [List.filter_cons, h]
    · have hy : ¬ f y = k := by
        intro hk
        exact hxy (le_of_eq (h.trans hk.symm))
      rw [insertOn_cons, if_neg hxy]
      simp [List.filter_cons, hy, ih]

theorem insertOn_filter_ne {α : Type} (f : α → Nat) (x : α) (k : Nat)
    (h : ¬ f x = k) :
    ∀ l : List α, (insertOn f x l).filter (fun a => decide (f a = k)) =
      l.filter (fun a => decide (f a = k)) := by
  intro l
  induction l with
  | nil => simp [insertOn, h]
  | cons y ys ih =>
    by_cases hxy : f x ≤ f y
    · rw [insertOn_cons, if_pos hxy]
      simp [List.filter_cons, h]
    · rw [insertOn_cons, if_neg hxy]
      simp [List.filter_cons, ih]

/-- Stability of `sortOn`: within each key class the original order is kept. -/
theorem sortOn_filter {α : Type} (f : α → Nat) (k : Nat) :
    ∀ l : List α, (sortOn f l).filter (fun a => decide (f a = k)) =
      l.filter (fun a => decide (f a = k)) := by
  intro l
  induction l with
  | nil => simp [sortOn]
  | cons x xs ih =>
    by_cases h : f x = k
    · rw [sortOn, insertOn_filter_eq f x k h, ih, List.filter_cons]
      simp [h]
    · rw [sortOn, insertOn_filter_ne f x k h, ih, List.filter_cons]
      simp [h]

/-! ### Weekly timeline (page.tsx lines 261-281) -/

/-- `allWeeks` (line 262): the canonical week range, the numeric strings
"1" … "17" modelled as the naturals 1 … 17. -/
def allWeeks : List Nat := (List.range 17).map (· + 1)

/-- The synthesized zero-valued stat line for weeks absent from the source
(lines 269-275). -/
def emptyWeek : PlayerStats :=
  { points := 0
    projected_points := 0
    avg_points := some 0
    breakdown := []
    projected_breakdown := [] }

/-- `weeklyStats` (lines 263-276): for each week in `allWeeks` emit the
source entry when present, else the synthesized zero line. -/
def weeklyStats (stats : List (Nat × PlayerStats)) : List (Nat × PlayerStats) :=
  allWeeks.map (fun w =>
    match alookup stats w with
    | some s => (w, s)
    | none => (w, emptyWeek))

/-- `actualWeeklyStats` (lines 279-281): the source entries without week "0",
sorted ascending by week (`.sort(([a],[b]) => Number(a) - Number(b))`). -/
def actualWeeklyStats (stats : List (Nat × PlayerStats)) :
    List (Nat × PlayerStats) :=
  sortOn (fun e => e.1) (stats.filter (fun e => decide (e.1 ≠ 0)))

/-! ### Derived metrics (page.tsx lines 284-300) -/

/-- `gamesPlayed` (line 284). -/
def gamesPlayed (stats : List (Nat × PlayerStats)) : Nat :=
  ((actualWeeklyStats stats).filter (fun e => decide (0 < e.2.points))).length

/-- `weeklyPoints` (line 285): the per-week points, keeping only positive
values. -/
def weeklyPoints (stats : List (Nat × PlayerStats)) : List ℚ :=
  ((actualWeeklyStats stats).map (fun e => e.2.points)).filter
    (fun p => decide (0 < p))

/-- `maxWeek` (line 286): `Math.max(...weeklyPoints, 0)`. -/
def maxWeek (pts : List ℚ) : ℚ := pts.foldl max 0

/-- `minWeek` (line 287): `Math.min(...weeklyPoints.filter(p => p > 0),
Infinity)`; `none` stands for `Infinity`. -/
def minWeek (pts : List ℚ) : Option ℚ :=
  (pts.filter (fun p => decide (0 < p))).min?

/-- The displayed floor (line 475): `minWeek === Infinity ? 0 : minWeek`. -/
def floorDisplay (pts : List ℚ) : ℚ := (minWeek pts).getD 0

/-- `performanceVsProjection` (lines 288-290). -/
def performanceVsProjection (total projectedTotal : ℚ) : ℚ :=
  if 0 < projectedTotal then total / projectedTotal * 100 - 100 else 0

/-- `pointsStdDev` (lines 294-296): the root-mean-square deviation of the
weekly point values from the player's stored `avg_points`, 0 when fewer than
two values. -/
noncomputable def pointsStdDev (pts : List ℚ) (avg : ℚ) : ℝ :=
  if 1 < pts.length then
    Real.sqrt
      ((pts.foldl (fun (sum : ℝ) (p : ℚ) => sum + ((p : ℝ) - (avg : ℝ)) ^ 2) 0) /
        pts.length)
  else 0

/-- `consistencyScore` (line 297). -/
noncomputable def consistencyScore (pts : List ℚ) (avg : ℚ) : ℝ :=
  if 0 < avg then
    max 0 (min 100 ((1 - pointsStdDev pts avg / (avg : ℝ)) * 100))
  else 0

/-- `weeksBeatProjection` (line 300). -/
def weeksBeatProjection (stats : List (Nat × PlayerStats)) : Nat :=
  ((actualWeeklyStats stats).filter
    (fun e => decide (e.2.projected_points ≤ e.2.points ∧ 0 < e.2.points))).length

/-! ### Season aggregation (page.tsx lines 303-316) -/

/-- One update `breakdown[stat] = (breakdown[stat] || 0) + value` on a JS
object: an existing key is updated in place, a new key is appended. -/
def addStat : List (String × ℚ) → String → ℚ → List (String × ℚ)
  | [], k, v => [(k, v)]
  | (a, w) :: rest, k, v =>
    if a = k then (a, w + v) :: rest else (a, w) :: addStat rest k v

/-- The nested `forEach` fold of lines 307-311, from a given accumulator. -/
def foldBreakdown (init : List (String × ℚ))
    (weeks : List (Nat × PlayerStats)) : List (String × ℚ) :=
  weeks.foldl
    (fun acc e => e.2.breakdown.foldl (fun a kv => addStat a kv.1 kv.2) acc)
    init

/-- The breakdown `player.seasonTotals?.breakdown || {}` starts from. -/
def providedBreakdown (st : Option SeasonTotals) : List (String × ℚ) :=
  match st with
  | some s => s.breakdown
  | none => []

/-- `getSeasonStats` (lines 303-314), value part: the provided season
breakdown when non-empty, otherwise the fold of the weekly breakdowns over
`actualWeeklyStats`. -/
def getSeasonStats (st : Option SeasonTotals)
    (aws : List (Nat × PlayerStats)) : List (String × ℚ) :=
  if providedBreakdown st = [] then foldBreakdown [] aws
  else providedBreakdown st

/-- `getSeasonStats` with its store effect made explicit.  In the source,
`const breakdown = player.seasonTotals?.breakdown || {}` keeps the object
reference whenever `seasonTotals` is non-null (every JS object, `{}`
included, is truthy), so the in-place writes of lines 307-311 mutate
`player.seasonTotals.breakdown`; the returned `Player` is the entity as it
stands after the call. -/
def getSeasonStatsState (p : Player) : List (String × ℚ) × Player :=
  match p.seasonTotals with
  | none => (getSeasonStats none (actualWeeklyStats p.stats), p)
  | some s =>
    if s.breakdown = [] then
      let bd := foldBreakdown s.breakdown (actualWeeklyStats p.stats)
      (bd, { p with seasonTotals := some { s with breakdown := bd } })
    else (s.breakdown, p)

/-! ### Stat classification (page.tsx lines 98-166 and 319-332) -/

/-- One entry of `STAT_CONFIG`. -/
structure StatConfig where
  label : String
  abbr : String
  format : Option String
  category : String
  positions : Option (List String)
deriving DecidableEq

/-- Shorthand for the common case of an entry with no format tag. -/
def mkCfg (label abbr category : String) (positions : Option (List String)) :
    StatConfig :=
  { label := label
    abbr := abbr
    format := none
    category := category
    positions := positions }

/-- `STAT_CONFIG` (lines 98-166): the stat classification table. -/
def STAT_CONFIG : List (String × StatConfig) := [
  ("passingAttempts", mkCfg "Pass Attempts" "ATT" "passing" (some ["QB"])),
  ("passingCompletions", mkCfg "Completions" "CMP" "passing" (some ["QB"])),
  ("passingIncompletions", mkCfg "Incompletions" "INC" "passing" (some ["QB"])),
  ("passingYards", mkCfg "Passing Yards" "YDS" "passing" (some ["QB"])),
  ("passingTouchdowns", mkCfg "Passing TDs" "TD" "passing" (some ["QB"])),
  ("passingInterceptions", mkCfg "Interceptions" "INT" "passing" (some ["QB"])),
  ("passing2PtConversions", mkCfg "2PT Conversions" "2PT" "passing" (some ["QB"])),
  ("passingCompletionPercentage",
    { label := "Completion %"
      abbr := "CMP%"
      format := some "pct"
      category := "passing"
      positions := some ["QB"] }),
  ("passing300To399YardGame", mkCfg "300+ Yard Games" "300+" "passing" (some ["QB"])),
  ("passing400PlusYardGame", mkCfg "400+ Yard Games" "400+" "passing" (some ["QB"])),
  ("passing40PlusYardTD", mkCfg "40+ Yard TDs" "40+TD" "passing" (some ["QB"])),
  ("passingTimesSacked", mkCfg "Times Sacked" "SCK" "passing" (some ["QB"])),
  ("passingCompletionYards", mkCfg "Completion Yards" "CYDS" "passing" (some ["QB"])),
  ("passingFirstDowns", mkCfg "First Downs" "1D" "passing" (some ["QB"])),
  ("rushingAttempts", mkCfg "Rush Attempts" "ATT" "rushing" (some ["RB", "QB", "WR"])),
  ("rushingYards", mkCfg "Rushing Yards" "YDS" "rushing" (some ["RB", "QB", "WR"])),
  ("rushingTouchdowns", mkCfg "Rushing TDs" "TD" "rushing" (some ["RB", "QB", "WR"])),
  ("rushing2PtConversions", mkCfg "2PT Conversions" "2PT" "rushing" (some ["RB", "QB"])),
  ("rushingYardsPerAttempt",
    { label := "Yards/Attempt"
      abbr := "YPC"
      format := some "decimal"
      category := "rushing"
      positions := some ["RB", "QB", "WR"] }),
  ("rushing100To199YardGame", mkCfg "100+ Yard Games" "100+" "rushing" (some ["RB"])),
  ("rushingFirstDowns", mkCfg "First Downs" "1D" "rushing" (some ["RB", "QB"])),
  ("receivingReceptions", mkCfg "Receptions" "REC" "receiving" (some ["WR", "TE", "RB"])),
  ("receivingTargets", mkCfg "Targets" "TGT" "receiving" (some ["WR", "TE", "RB"])),
  ("receivingYards", mkCfg "Receiving Yards" "YDS" "receiving" (some ["WR", "TE", "RB"])),
  ("receivingTouchdowns", mkCfg "Receiving TDs" "TD" "receiving" (some ["WR", "TE", "RB"])),
  ("receiving2PtConversions", mkCfg "2PT Conversions" "2PT" "receiving" (some ["WR", "TE", "RB"])),
  ("receivingYardsAfterCatch", mkCfg "Yards After Catch" "YAC" "receiving" (some ["WR", "TE", "RB"])),
  ("receivingYardsPerReception",
    { label := "Yards/Reception"
      abbr := "YPR"
      format := some "decimal"
      category := "receiving"
      positions := some ["WR", "TE", "RB"] }),
  ("receivingFirstDowns", mkCfg "First Downs" "1D" "receiving" (some ["WR", "TE", "RB"])),
  ("madeFieldGoals", mkCfg "FG Made" "FGM" "kicking" (some ["K"])),
  ("attemptedFieldGoals", mkCfg "FG Attempted" "FGA" "kicking" (some ["K"])),
  ("missedFieldGoals", mkCfg "FG Missed" "FGX" "kicking" (some ["K"])),
  ("madeFieldGoals50Plus", mkCfg "50+ FG Made" "50+" "kicking" (some ["K"])),
  ("madeFieldGoals40To49", mkCfg "40-49 FG Made" "40-49" "kicking" (some ["K"])),
  ("madeFieldGoals1To39", mkCfg "Under 40 FG" "<40" "kicking" (some ["K"])),
  ("madeExtraPoints", mkCfg "XP Made" "XPM" "kicking" (some ["K"])),
  ("missedExtraPoints", mkCfg "XP Missed" "XPX" "kicking" (some ["K"])),
  ("defensiveSacks", mkCfg "Sacks" "SCK" "defense" (some ["D/ST"])),
  ("defensiveInterceptions", mkCfg "Interceptions" "INT" "defense" (some ["D/ST"])),
  ("defensiveFumbleRecoveries", mkCfg "Fumbles Recovered" "FR" "defense" (some ["D/ST"])),
  ("defensiveForcedFumbles", mkCfg "Forced Fumbles" "FF" "defense" (some ["D/ST"])),
  ("defensiveTouchdowns", mkCfg "Defensive TDs" "TD" "defense" (some ["D/ST"])),
  ("defensivePointsAllowed", mkCfg "Points Allowed" "PA" "defense" (some ["D/ST"])),
  ("defensiveSafeties", mkCfg "Safeties" "SAF" "defense" (some ["D/ST"])),
  ("defensiveBlockedKicks", mkCfg "Blocked Kicks" "BLK" "defense" (some ["D/ST"])),
  ("defensiveSoloTackles", mkCfg "Solo Tackles" "SOLO" "defense" (some ["D/ST"])),
  ("defensiveTotalTackles", mkCfg "Total Tackles" "TKL" "defense" (some ["D/ST"])),
  ("defensivePassesDefended", mkCfg "Passes Defended" "PD" "defense" (some ["D/ST"])),
  ("kickReturnTouchdowns", mkCfg "Kick Return TDs" "KRTD" "defense" (some ["D/ST"])),
  ("puntReturnTouchdowns", mkCfg "Punt Return TDs" "PRTD" "defense" (some ["D/ST"])),
  ("interceptionReturnTouchdowns", mkCfg "INT Return TDs" "INTTD" "defense" (some ["D/ST"])),
  ("fumbleReturnTouchdowns", mkCfg "Fumble Return TDs" "FRTD" "defense" (some ["D/ST"])),
  ("fumbles", mkCfg "Fumbles" "FUM" "misc" none),
  ("lostFumbles", mkCfg "Fumbles Lost" "LOST" "misc" none),
  ("turnovers", mkCfg "Turnovers" "TO" "misc" none),
  ("fumblesTotal", mkCfg "Total Fumbles" "FUM" "misc" none)]

/-- The position guard `!config.positions ||
config.positions.includes(position)`. -/
def isApplicable (cfg : StatConfig) (position : String) : Bool :=
  match cfg.positions with
  | none => true
  | some ps => ps.contains position

/-- A breakdown entry survives the categorized view for category `c`:
its key is classified, applicable to the position, and tagged `c`. -/
def inCat (position c : String) (e : String × ℚ) : Bool :=
  match alookup STAT_CONFIG e.1 with
  | some cfg => isApplicable cfg position && cfg.category == c
  | none => false

/-- `statsByCategory[config.category].push(...)` on a JS record of arrays:
append to an existing category, else add the category at the end. -/
def pushCat : List (String × List (String × ℚ)) → String → (String × ℚ) →
    List (String × List (String × ℚ))
  | [], c, e => [(c, [e])]
  | (c', l) :: rest, c, e =>
    if c' = c then (c', l ++ [e]) :: rest
    else (c', l) :: pushCat rest c e

/-- One step of the `statsByCategory` loop body (lines 321-332): skip an
unclassified key, skip a key not applicable to the position, else push the
entry into its category. -/
def catStep (position : String) (acc : List (String × List (String × ℚ)))
    (e : String × ℚ) : List (String × List (String × ℚ)) :=
  match alookup STAT_CONFIG e.1 with
  | none => acc
  | some cfg =>
    if isApplicable cfg position then pushCat acc cfg.category e else acc

/-- `statsByCategory` (lines 319-332): group the season breakdown by
category, dropping unknown keys and keys not applicable to the player's
position.  (The source pushes `\x7b key, value, config \x7d`; `config` is
recoverable by lookup, so entries are kept as key/value pairs.) -/
def statsByCategory (seasonBreakdown : List (String × ℚ)) (position : String) :
    List (String × List (String × ℚ)) :=
  seasonBreakdown.foldl (catStep position) []

/-- The `WeekCard` breakdown view (lines 832-849): keep classified keys
applicable to the position, then show at most the first 12
(`.slice(0, 12)`). -/
def weekCardEntries (breakdown : List (String × ℚ)) (position : String) :
    List (String × ℚ) :=
  ((breakdown.filter (fun e =>
    match alookup STAT_CONFIG e.1 with
    | some cfg => isApplicable cfg position
    | none => false)).take 12)

/-! ### Roster ordering (src/unnamed/part_001 lines 343-347) -/

/-- `slotOrder` (line 345): the lineup-slot priority table. -/
def slotOrder : List (String × Nat) :=
  [("QB", 1), ("RB", 2), ("WR", 3), ("TE", 4), ("RB/WR/TE", 5), ("D/ST", 6),
   ("K", 7), ("BE", 8), ("IR", 9)]

/-- `slotOrder[slot] || 10`: unknown slots get priority 10. -/
def slotPriority (slot : String) : Nat := (alookup slotOrder slot).getD 10

/-- The roster sort of lines 343-347: a stable ascending sort on
`slotPriority` (JS `sort` with comparator
`(a, b) => (slotOrder[a.lineupSlot] || 10) - (slotOrder[b.lineupSlot] || 10)`
is stable). -/
def sortRoster (roster : List DashPlayer) : List DashPlayer :=
  sortOn (fun p => slotPriority p.lineupSlot) roster

/-! ### Player resolution (page.tsx lines 217-256) -/

/-- The player lookup of lines 222-229: scan rosters in stored order and
take the first player whose `playerId.toString()` equals the URL id,
together with that roster's team name. -/
def findPlayer : List (String × List Player) → String →
    Option (String × Player)
  | [], _ => none
  | (team, roster) :: rest, pid =>
    match roster.find? (fun p => decide (toString p.playerId = pid)) with
    | some p => some (team, p)
    | none => findPlayer rest pid

/-- The metrics the page derives for a found player (lines 261-316). -/
structure DerivedMetrics where
  timeline : List (Nat × PlayerStats)
  games : Nat
  pts : List ℚ
  ceiling : ℚ
  floor : ℚ
  vsProj : ℚ
  consistency : ℝ
  beatProj : Nat
  seasonBreakdown : List (String × ℚ)

/-- The derived metrics computed for a found player. -/
noncomputable def computeMetrics (p : Player) : DerivedMetrics :=
  { timeline := weeklyStats p.stats
    games := gamesPlayed p.stats
    pts := weeklyPoints p.stats
    ceiling := maxWeek (weeklyPoints p.stats)
    floor := floorDisplay (weeklyPoints p.stats)
    vsProj := performanceVsProjection p.total_points p.projected_total_points
    consistency := consistencyScore (weeklyPoints p.stats) p.avg_points
    beatProj := weeksBeatProjection p.stats
    seasonBreakdown := getSeasonStats p.seasonTotals (actualWeeklyStats p.stats) }

/-- What the page resolves to: the not-found state (lines 246-256, reached
when no stored snapshot holds a matching player) carries no metrics; the
found state carries the selected player, its team name, and the derived
metrics. -/
inductive PageResult where
  | notFound : PageResult
  | found : String → Player → DerivedMetrics → PageResult

/-- The page resolution (lines 217-256): `none` models an absent
`leagueData` key in the persisted store. -/
noncomputable def renderPlayerPage (stored : Option LeagueData)
    (pid : String) : PageResult :=
  match stored with
  | none => PageResult.notFound
  | some d =>
    match findPlayer d.rosters pid with
    | none => PageResult.notFound
    | some (team, p) => PageResult.found team p (computeMetrics p)

/-! ### Definitions following the spec's words, for comparison

Each of the following is a second definition written from the spec text of a
claim (not from the source), used only to compare against the source-derived
definition above. -/

/-- Modelled from the spec (claim C2): the population standard deviation of
the weekly point values about their own mean, 0 when fewer than two values,
fed into the same clamp formula. -/
noncomputable def consistencyScoreClaim (pts : List ℚ) (avg : ℚ) : ℝ :=
  let n : ℝ := pts.length
  let mean : ℝ := (pts.map (fun p => (p : ℝ))).sum / n
  let sigma : ℝ :=
    if 1 < pts.length then
      Real.sqrt (((pts.map (fun p => ((p : ℝ) - mean) ^ 2)).sum) / n)
    else 0
  if 0 < avg then max 0 (min 100 ((1 - sigma / (avg : ℝ)) * 100)) else 0

/-- Modelled from the spec (claim C3): fold the season breakdown only over
the weeks whose points are positive. -/
def getSeasonStatsClaim (st : Option SeasonTotals)
    (aws : List (Nat × PlayerStats)) : List (String × ℚ) :=
  if providedBreakdown st = [] then
    foldBreakdown [] (aws.filter (fun e => decide (0 < e.2.points)))
  else providedBreakdown st

/-- Modelled from the spec (claim C8): the floor as the minimum of the
non-zero weekly point values, 0 when no non-zero value exists. -/
def floorClaim (pts : List ℚ) : ℚ :=
  ((pts.filter (fun p => decide (p ≠ 0))).min?).getD 0

/-! ### Helper lemmas -/

theorem mem_allWeeks {w : Nat} : w ∈ allWeeks ↔ 1 ≤ w ∧ w ≤ 17 := by
  constructor
  · intro hw
    rcases List.mem_map.mp hw with ⟨a, ha, rfl⟩
    have := List.mem_range.mp ha
    omega
  · intro hw
    refine List.mem_map.mpr ⟨w - 1, List.mem_range.mpr (by omega), by omega⟩

theorem weeklyStats_eq (stats : List (Nat × PlayerStats)) :
    weeklyStats stats =
      allWeeks.map (fun w => (w, (alookup stats w).getD emptyWeek)) := by
  unfold weeklyStats
  apply List.map_congr_left
  intro w _
  cases h : alookup stats w <;> simp [h]

theorem alookup_map_self {β : Type} (g : Nat → β) {w : Nat} :
    ∀ l : List Nat, w ∈ l →
      alookup (l.map (fun x => (x, g x))) w = some (g w) := by
  intro l
  induction l with
  | nil => intro hw; cases hw
  | cons x xs ih =>
    intro hw
    by_cases h : x = w
    · subst h; simp [alookup]
    · have hx : w ∈ xs := by
        rcases List.mem_cons.mp hw with hw | hw
        · exact absurd hw.symm h
        · exact hw
      simp [alookup, h, ih hx]

/-! ### Claim theorems -/

/-- C1: for every player stats mapping, the weekly timeline built for
display has exactly one entry per week in the canonical range 1..17 in
ascending order (its keys are exactly `allWeeks`); each entry carries the
source stat line when the week is present in the mapping and the
synthesized zero-valued line otherwise; no entry exists for a week outside
the range. -/
theorem weeklyStats_complete (stats : List (Nat × PlayerStats)) :
    (weeklyStats stats).map Prod.fst = allWeeks ∧
    (∀ w s, (w, s) ∈ weeklyStats stats →
      (1 ≤ w ∧ w ≤ 17) ∧ s = (alookup stats w).getD emptyWeek) ∧
    (∀ w, 1 ≤ w → w ≤ 17 →
      alookup (weeklyStats stats) w =
        some ((alookup stats w).getD emptyWeek)) := by
  refine ⟨?_, ?_, ?_⟩
  · rw [weeklyStats_eq, List.map_map]
    exact List.map_id allWeeks ▸ rfl
  · intro w s hmem
    rw [weeklyStats_eq] at hmem
    rcases List.mem_map.mp hmem with ⟨x, hx, hxe⟩
    rcases Prod.mk.injEq .. ▸ hxe with ⟨hw, hs⟩
    subst hw
    exact ⟨mem_allWeeks.mp hx, hs.symm⟩
  · intro w h1 h17
    rw [weeklyStats_eq]
    exact alookup_map_self _ allWeeks (mem_allWeeks.mpr ⟨h1, h17⟩)

/-- Witness for C1 at the spec's own example shape: a mapping holding only
week 3 yields a timeline whose week-3 entry is the source line. -/
theorem weeklyStats_complete_witness :
    alookup (weeklyStats [(3, { points := 12
                                projected_points := 10
                                avg_points := none
                                breakdown := [("rushingYards", 80)]
                                projected_breakdown := [] })]) 3 =
      some { points := 12
             projected_points := 10
             avg_points := none
             breakdown := [("rushingYards", 80)]
             projected_breakdown := [] } := by
  have h := (weeklyStats_complete [(3, { points := 12
                                         projected_points := 10
                                         avg_points := none
                                         breakdown := [("rushingYards", 80)]
                                         projected_breakdown := [] })]).2.2
    3 (by norm_num) (by norm_num)
  rw [h]
  rfl

/-- C5: the percentage-versus-projection metric equals
`(total / projectedTotal - 1) * 100` whenever the projected total is
positive and 0 otherwise; in particular it maps (100, 0) to 0, (120, 100)
to 20 and (80, 100) to -20. -/
theorem performanceVsProjection_spec :
    (∀ total projectedTotal : ℚ,
      performanceVsProjection total projectedTotal =
        if 0 < projectedTotal then (total / projectedTotal - 1) * 100
        else 0) ∧
    performanceVsProjection 100 0 = 0 ∧
    performanceVsProjection 120 100 = 20 ∧
    performanceVsProjection 80 100 = -20 := by
  refine ⟨?_, by norm_num [performanceVsProjection], ?_, ?_⟩
  · intro total projectedTotal
    unfold performanceVsProjection
    by_cases h : 0 < projectedTotal
    · rw [if_pos h, if_pos h]; ring
    · rw [if_neg h, if_neg h]
  · norm_num [performanceVsProjection]
  · norm_num [performanceVsProjection]

theorem foldl_sq_replicate (avg : ℚ) : ∀ (n : Nat) (s : ℝ),
    (List.replicate n avg).foldl
      (fun (sum : ℝ) (p : ℚ) => sum + ((p : ℝ) - (avg : ℝ)) ^ 2) s = s := by
  intro n
  induction n with
  | zero => intro s; rfl
  | succ n ih =>
    intro s
    rw [List.replicate_succ, List.foldl_cons]
    have h : s + (((avg : ℚ) : ℝ) - ((avg : ℚ) : ℝ)) ^ 2 = s := by
      rw [sub_self]
      norm_num
    rw [h, ih]

theorem pointsStdDev_replicate (n : Nat) (avg : ℚ) :
    pointsStdDev (List.replicate n avg) avg = 0 := by
  unfold pointsStdDev
  rw [foldl_sq_replicate]
  by_cases h : 1 < (List.replicate n avg).length
  · rw [if_pos h, zero_div, Real.sqrt_zero]
  · rw [if_neg h]

/-- C2 counterexample: the claim's score — built from the population
standard deviation of the values about their own mean — disagrees with the
code on perfectly uniform non-zero weekly points [10, 10] with stored
average 5 (claim: 100, code: 0, because the code measures deviation from
the stored `avg_points`, not from the mean); and on the all-zero case
(empty non-zero point list) with a positive stored average the code yields
100, not the 0 the claim states. -/
theorem consistencyScore_counterexample :
    consistencyScore [10, 10] 5 = 0 ∧
    consistencyScoreClaim [10, 10] 5 = 100 ∧
    consistencyScore [] 5 = 100 := by
  refine ⟨?_, ?_, ?_⟩
  · have hsd : pointsStdDev [10, 10] 5 = 5 := by
      unfold pointsStdDev
      rw [if_pos (by norm_num)]
      have h : (([10, 10] : List ℚ).foldl
          (fun (sum : ℝ) (p : ℚ) => sum + ((p : ℝ) - ((5 : ℚ) : ℝ)) ^ 2) 0) /
            (([10, 10] : List ℚ).length : ℝ) = 25 := by
        simp [List.foldl]
        norm_num
      rw [h, show (25 : ℝ) = 5 ^ 2 by norm_num]
      exact Real.sqrt_sq (by norm_num)
    unfold consistencyScore
    rw [if_pos (by norm_num), hsd]
    push_cast
    norm_num
  · unfold consistencyScoreClaim
    simp only [List.map_cons, List.map_nil, List.sum_cons, List.sum_nil,
      List.length_cons, List.length_nil]
    push_cast
    norm_num
  · unfold consistencyScore pointsStdDev
    rw [if_pos (by norm_num)]
    norm_num

/-- C2 amended: the consistency score equals
`clamp(0, 100, (1 - sigma/avgPoints) * 100)` when `avgPoints > 0` and 0
otherwise, where `sigma` is the root-mean-square deviation of the non-zero
weekly point values from `avgPoints` (0 when fewer than two such values);
consequently the result is always in [0, 100], equals 0 whenever
`avgPoints <= 0`, and equals 100 for perfectly uniform non-zero weekly
points whose common value is `avgPoints`. -/
theorem consistencyScore_amended (pts : List ℚ) (avg : ℚ) :
    (0 ≤ consistencyScore pts avg ∧ consistencyScore pts avg ≤ 100) ∧
    (avg ≤ 0 → consistencyScore pts avg = 0) ∧
    (0 < avg → ∀ n : Nat,
      consistencyScore (List.replicate n avg) avg = 100) := by
  refine ⟨?_, ?_, ?_⟩
  · unfold consistencyScore
    by_cases h : 0 < avg
    · rw [if_pos h]
      exact ⟨le_max_left 0 _, max_le (by norm_num) (min_le_left _ _)⟩
    · rw [if_neg h]
      exact ⟨le_refl 0, by norm_num⟩
  · intro h
    unfold consistencyScore
    rw [if_neg (not_lt.mpr h)]
  · intro h n
    unfold consistencyScore
    rw [if_pos h, pointsStdDev_replicate, zero_div, sub_zero, one_mul,
      min_self, max_eq_right (by norm_num : (0 : ℝ) ≤ 100)]

/-- Witness for C2's amended theorem: four uniform weeks at the stored
average of 2 score exactly 100. -/
theorem consistencyScore_amended_witness :
    consistencyScore (List.replicate 4 (2 : ℚ)) 2 = 100 :=
  (consistencyScore_amended [] 2).2.2 (by norm_num) 4

theorem addStat_cons (a : String) (w : ℚ) (rest : List (String × ℚ))
    (k : String) (v : ℚ) :
    addStat ((a, w) :: rest) k v =
      if a = k then (a, w + v) :: rest else (a, w) :: addStat rest k v := rfl

theorem alookup_cons {α β : Type} [DecidableEq α] (k : α) (v : β)
    (rest : List (α × β)) (a : α) :
    alookup ((k, v) :: rest) a = if k = a then some v else alookup rest a := rfl

theorem lookupD_addStat (k k' : String) (v : ℚ) :
    ∀ bd, lookupD (addStat bd k' v) k =
      lookupD bd k + (if k' = k then v else 0) := by
  intro bd
  induction bd with
  | nil =>
    by_cases h : k' = k
    · simp [addStat, lookupD, alookup, h]
    · simp [addStat, lookupD, alookup, h]
  | cons a rest ih =>
    obtain ⟨ak, aw⟩ := a
    rw [addStat_cons]
    by_cases h1 : ak = k'
    · rw [if_pos h1]
      by_cases h2 : ak = k
      · have hk : k' = k := h1 ▸ h2
        simp [lookupD, alookup, h2, hk]
      · have hk : ¬ k' = k := fun he => h2 (h1.symm ▸ he)
        simp [lookupD, alookup, h2, hk]
    · rw [if_neg h1]
      by_cases h2 : ak = k
      · have hk : ¬ k' = k := fun he => h1 (h2.trans he.symm)
        simp [lookupD, alookup, h2, hk]
      · unfold lookupD
        rw [alookup_cons, alookup_cons, if_neg h2, if_neg h2]
        exact ih

theorem lookupD_foldEntries (k : String) :
    ∀ (entries acc : List (String × ℚ)),
      lookupD (entries.foldl (fun a kv => addStat a kv.1 kv.2) acc) k =
        lookupD acc k +
          ((entries.filter (fun kv => decide (kv.1 = k))).map Prod.snd).sum := by
  intro entries
  induction entries with
  | nil => intro acc; simp
  | cons e rest ih =>
    intro acc
    rw [List.foldl_cons, ih, lookupD_addStat, List.filter_cons]
    by_cases h : e.1 = k
    · simp only [h, decide_True, if_true, List.map_cons, List.sum_cons]
      ring
    · simp only [h, decide_False, if_false]
      ring_nf
      simp [h]

theorem lookupD_foldBreakdown (k : String) :
    ∀ (weeks : List (Nat × PlayerStats)) (init : List (String × ℚ)),
      lookupD (foldBreakdown init weeks) k =
        lookupD init k +
          (weeks.map (fun e =>
            ((e.2.breakdown.filter (fun kv => decide (kv.1 = k))).map
              Prod.snd).sum)).sum := by
  intro weeks
  induction weeks with
  | nil => intro init; simp [foldBreakdown]
  | cons wk rest ih =>
    intro init
    have hstep : foldBreakdown init (wk :: rest) =
        foldBreakdown
          (wk.2.breakdown.foldl (fun a kv => addStat a kv.1 kv.2) init)
          rest := by
      unfold foldBreakdown
      rw [List.foldl_cons]
    rw [hstep, ih, lookupD_foldEntries, List.map_cons, List.sum_cons]
    ring

/-- C3 counterexample: with no provided totals and a single week whose
points are 0 but whose breakdown is non-empty, the code folds that week in
(the claim's points-gated fold would yield the empty breakdown). -/
theorem getSeasonStats_counterexample :
    getSeasonStats none
      (actualWeeklyStats [(1, { points := 0
                                projected_points := 0
                                avg_points := none
                                breakdown := [("fumbles", 2)]
                                projected_breakdown := [] })]) =
      [("fumbles", 2)] ∧
    getSeasonStatsClaim none
      (actualWeeklyStats [(1, { points := 0
                                projected_points := 0
                                avg_points := none
                                breakdown := [("fumbles", 2)]
                                projected_breakdown := [] })]) = [] := by
  constructor <;> rfl

/-- C3 amended: when provided season totals with a non-empty breakdown
exist, that breakdown is returned unchanged; otherwise the season breakdown
is folded over all weeks of the timeline other than week 0 — regardless of
their points — summing each key's value; the computation yields only the
breakdown mapping (season points and averages are read from the player's
stored scalar fields, not recomputed here). -/
theorem getSeasonStats_amended (st : Option SeasonTotals)
    (stats : List (Nat × PlayerStats)) :
    (providedBreakdown st ≠ [] →
      getSeasonStats st (actualWeeklyStats stats) = providedBreakdown st) ∧
    (providedBreakdown st = [] →
      ∀ k, lookupD (getSeasonStats st (actualWeeklyStats stats)) k =
        ((stats.filter (fun e => decide (e.1 ≠ 0))).map (fun e =>
          ((e.2.breakdown.filter (fun kv => decide (kv.1 = k))).map
            Prod.snd).sum)).sum) := by
  constructor
  · intro h
    unfold getSeasonStats
    rw [if_neg h]
  · intro h k
    unfold getSeasonStats
    rw [if_pos h, lookupD_foldBreakdown]
    unfold actualWeeklyStats
    have hperm := (sortOn_perm (fun e : Nat × PlayerStats => e.1)
      (stats.filter (fun e => decide (e.1 ≠ 0)))).map
      (fun e : Nat × PlayerStats =>
        ((e.2.breakdown.filter (fun kv => decide (kv.1 = k))).map
          Prod.snd).sum)
    rw [hperm.sum_eq]
    simp [lookupD, alookup]

/-- Witness for C3's amended theorem: a week-2 rushing line is summed into
the season breakdown when no totals are provided. -/
theorem getSeasonStats_amended_witness :
    lookupD (getSeasonStats none
      (actualWeeklyStats [(2, { points := 7
                                projected_points := 5
                                avg_points := none
                                breakdown := [("rushingYards", 3)]
                                projected_breakdown := [] })]))
      "rushingYards" = 3 := by
  have h := (getSeasonStats_amended none
    [(2, { points := 7
           projected_points := 5
           avg_points := none
           breakdown := [("rushingYards", 3)]
           projected_breakdown := [] })]).2 rfl "rushingYards"
  rw [h]
  norm_num

/-- A concrete base player used by the examples below. -/
def pBase : Player :=
  { name := "Test Player"
    playerId := 7
    position := "RB"
    posRank := none
    eligibleSlots := ["RB", "BE"]
    lineupSlot := "RB"
    acquisitionType := none
    proTeam := "SF"
    onTeamId := none
    injuryStatus := "ACTIVE"
    injured := false
    total_points := 120
    projected_total_points := 100
    avg_points := 10
    projected_avg_points := 9
    percent_owned := 99
    percent_started := 90
    stats := []
    seasonTotals := none
    schedule := []
    headshotUrl := none }

/-- A player whose provided season totals carry an empty breakdown while a
weekly breakdown exists: the aliasing case of `getSeasonStats`. -/
def pBug : Player :=
  { pBase with
    seasonTotals := some
      { points := 120
        projected_points := 100
        avg_points := 10
        projected_avg_points := 9
        breakdown := []
        projected_breakdown := [] }
    stats := [(1, { points := 5
                    projected_points := 4
                    avg_points := none
                    breakdown := [("rushingYards", 3)]
                    projected_breakdown := [] })] }

/-- C4: computing the season breakdown is not a projection on this input.
For a player whose `seasonTotals` is present with an empty breakdown and
whose stats carry a weekly breakdown, the code's `breakdown` variable
aliases `player.seasonTotals.breakdown` (`x || \x7b\x7d` keeps `x` because
every JS object is truthy) and the fold writes into it: the stored player's
season breakdown gains the folded keys, while the stats mapping stays
untouched. -/
theorem getSeasonStats_mutates :
    (getSeasonStatsState pBug).2 ≠ pBug ∧
    ((getSeasonStatsState pBug).2.seasonTotals.map SeasonTotals.breakdown) =
      some [("rushingYards", 3)] ∧
    (pBug.seasonTotals.map SeasonTotals.breakdown) = some [] ∧
    (getSeasonStatsState pBug).2.stats = pBug.stats := by
  refine ⟨by decide, rfl, rfl, rfl⟩

/-- A minimal dashboard player with the given name and lineup slot. -/
def mkDash (nm : String) (pid : Int) (pos slot : String) : DashPlayer :=
  { name := nm
    playerId := pid
    position := pos
    lineupSlot := slot
    proTeam := "SF"
    injuryStatus := "ACTIVE"
    total_points := 0
    projected_total_points := 0
    avg_points := 0
    projected_avg_points := 0
    percent_owned := 0
    percent_started := 0 }

/-- C6: the roster is sorted by the fixed lineup-slot priority table —
starting slots first, then BE, then IR, unknown slots (priority 10) after
all known slots — as a stable sort: the result is a permutation of the
input, is pairwise ordered by `slotPriority`, and preserves the original
relative order inside every priority class; on lineup slots
[BE, QB, IR, RB] it yields [QB, RB, BE, IR]. -/
theorem sortRoster_spec :
    (∀ roster : List DashPlayer,
      List.Perm (sortRoster roster) roster ∧
      (sortRoster roster).Pairwise
        (fun a b => slotPriority a.lineupSlot ≤ slotPriority b.lineupSlot) ∧
      ∀ k, (sortRoster roster).filter
          (fun p => decide (slotPriority p.lineupSlot = k)) =
        roster.filter (fun p => decide (slotPriority p.lineupSlot = k))) ∧
    sortRoster
        [mkDash "Bench Guy" 1 "WR" "BE", mkDash "Field General" 2 "QB" "QB",
         mkDash "Hurt Guy" 3 "RB" "IR", mkDash "Ball Carrier" 4 "RB" "RB"] =
      [mkDash "Field General" 2 "QB" "QB", mkDash "Ball Carrier" 4 "RB" "RB",
       mkDash "Bench Guy" 1 "WR" "BE", mkDash "Hurt Guy" 3 "RB" "IR"] := by
  constructor
  · intro roster
    exact ⟨sortOn_perm _ roster, sortOn_pairwise _ roster,
      fun k => sortOn_filter _ k roster⟩
  · decide

/-- C7: a week with points 0 counts as "did not play" for every metric:
`gamesPlayed` counts exactly the non-preseason weeks with positive points,
the weekly point values feeding the other metrics are all positive,
`weeksBeatProjection` counts exactly the non-preseason weeks with positive
points at or above their projection — and every week of the canonical
range, zero-point ones included, still appears in the displayed timeline. -/
theorem zeroWeeks_excluded (stats : List (Nat × PlayerStats)) :
    gamesPlayed stats =
      stats.countP (fun e => decide (e.1 ≠ 0 ∧ 0 < e.2.points)) ∧
    (∀ q ∈ weeklyPoints stats, 0 < q) ∧
    weeksBeatProjection stats =
      stats.countP (fun e =>
        decide (e.1 ≠ 0 ∧ 0 < e.2.points ∧
          e.2.projected_points ≤ e.2.points)) ∧
    (∀ w, 1 ≤ w → w ≤ 17 → ∃ s, (w, s) ∈ weeklyStats stats) := by
  refine ⟨?_, ?_, ?_, ?_⟩
  · unfold gamesPlayed actualWeeklyStats
    rw [((sortOn_perm (fun e : Nat × PlayerStats => e.1)
      (stats.filter (fun e => decide (e.1 ≠ 0)))).filter
      (fun e => decide (0 < e.2.points))).length_eq]
    rw [List.filter_filter, List.countP_eq_length_filter]
    apply congrArg
    apply List.filter_congr
    intro e _
    by_cases h1 : e.1 = 0 <;> by_cases h2 : 0 < e.2.points <;>
      simp [h1, h2]
  · intro q hq
    exact of_decide_eq_true (List.mem_filter.mp hq).2
  · unfold weeksBeatProjection actualWeeklyStats
    rw [((sortOn_perm (fun e : Nat × PlayerStats => e.1)
      (stats.filter (fun e => decide (e.1 ≠ 0)))).filter
      (fun e => decide (e.2.projected_points ≤ e.2.points ∧
        0 < e.2.points))).length_eq]
    rw [List.filter_filter, List.countP_eq_length_filter]
    apply congrArg
    apply List.filter_congr
    intro e _
    by_cases h1 : e.1 = 0 <;> by_cases h2 : 0 < e.2.points <;>
      by_cases h3 : e.2.projected_points ≤ e.2.points <;>
      simp [h1, h2, h3]
  · intro w h1 h17
    refine ⟨(alookup stats w).getD emptyWeek, ?_⟩
    rw [weeklyStats_eq]
    exact List.mem_map.mpr ⟨w, mem_allWeeks.mpr ⟨h1, h17⟩, rfl⟩

/-- Witness for C7: week 5 is present in the timeline of an empty stats
mapping. -/
theorem zeroWeeks_excluded_witness :
    ∃ s, (5, s) ∈ weeklyStats ([] : List (Nat × PlayerStats)) :=
  (zeroWeeks_excluded []).2.2.2 5 (by norm_num) (by norm_num)

theorem foldl_max_filter_pos :
    ∀ (l : List ℚ) (a : ℚ), 0 ≤ a →
      (l.filter (fun p => decide (0 < p))).foldl max a = l.foldl max a := by
  intro l
  induction l with
  | nil => intro a _; rfl
  | cons p rest ih =>
    intro a ha
    rw [List.filter_cons]
    by_cases h : 0 < p
    · simp only [h, decide_True, if_true, List.foldl_cons]
      exact ih (max a p) (le_trans ha (le_max_left a p))
    · rw [decide_eq_false h, if_neg (by simp), List.foldl_cons,
        max_eq_left (le_trans (le_of_not_lt h) ha)]
      exact ih a ha

theorem filter_pos_idem (l : List ℚ) :
    (l.filter (fun p => decide (0 < p))).filter (fun p => decide (0 < p)) =
      l.filter (fun p => decide (0 < p)) := by
  rw [List.filter_filter]
  apply List.filter_congr
  intro p _
  by_cases h : 0 < p <;> simp [h]

/-- C8 counterexample: on a single week worth -3 points (a non-zero value),
the claim's floor — the minimum of the non-zero weekly point values — is
-3, while the code filters to strictly positive values and so displays the
sentinel 0. -/
theorem floor_counterexample :
    floorClaim ((actualWeeklyStats
      [(1, { points := -3
             projected_points := 4
             avg_points := none
             breakdown := []
             projected_breakdown := [] })]).map (fun e => e.2.points)) =
      -3 ∧
    floorDisplay (weeklyPoints
      [(1, { points := -3
             projected_points := 4
             avg_points := none
             breakdown := []
             projected_breakdown := [] })]) = 0 := by
  constructor <;> decide

/-- C8 amended: the ceiling equals the maximum of all the weekly point
values together with 0 (so it is 0 when the sequence is empty or has no
positive value), and the displayed floor equals the minimum of the
*positive* weekly point values, or the sentinel 0 when no positive value
exists. -/
theorem floorCeiling_amended (stats : List (Nat × PlayerStats)) :
    maxWeek (weeklyPoints stats) =
      ((actualWeeklyStats stats).map (fun e => e.2.points)).foldl max 0 ∧
    floorDisplay (weeklyPoints stats) =
      ((((actualWeeklyStats stats).map (fun e => e.2.points)).filter
        (fun p => decide (0 < p))).min?).getD 0 ∧
    ((∀ e ∈ actualWeeklyStats stats, e.2.points ≤ 0) →
      maxWeek (weeklyPoints stats) = 0) := by
  refine ⟨?_, ?_, ?_⟩
  · unfold maxWeek weeklyPoints
    exact foldl_max_filter_pos _ 0 (le_refl 0)
  · unfold floorDisplay minWeek weeklyPoints
    rw [filter_pos_idem]
  · intro h
    unfold maxWeek weeklyPoints
    have hnil : ((actualWeeklyStats stats).map
        (fun e => e.2.points)).filter (fun p => decide (0 < p)) = [] := by
      rw [List.filter_eq_nil_iff]
      intro p hp
      rcases List.mem_map.mp hp with ⟨e, he, rfl⟩
      simpa using not_lt.mpr (h e he)
    rw [hnil]
    rfl

/-- Witness for C8's amended theorem: with a lone -3-point week the ceiling
is 0. -/
theorem floorCeiling_amended_witness :
    maxWeek (weeklyPoints
      [(1, { points := -3
             projected_points := 4
             avg_points := none
             breakdown := []
             projected_breakdown := [] })]) = 0 :=
  (floorCeiling_amended
    [(1, { points := -3
           projected_points := 4
           avg_points := none
           breakdown := []
           projected_breakdown := [] })]).2.2 (by decide)

theorem pushCat_cons (c' : String) (l : List (String × ℚ))
    (rest : List (String × List (String × ℚ))) (c : String) (e : String × ℚ) :
    pushCat ((c', l) :: rest) c e =
      if c' = c then (c', l ++ [e]) :: rest
      else (c', l) :: pushCat rest c e := rfl

theorem alookup_pushCat_same (c : String) (e : String × ℚ) :
    ∀ acc, (alookup (pushCat acc c e) c).getD [] =
      (alookup acc c).getD [] ++ [e] := by
  intro acc
  induction acc with
  | nil => simp [pushCat, alookup]
  | cons a rest ih =>
    obtain ⟨c', l⟩ := a
    rw [pushCat_cons]
    by_cases h : c' = c
    · subst h
      simp [alookup]
    · rw [if_neg h, alookup_cons, alookup_cons, if_neg h, if_neg h]
      exact ih

theorem alookup_pushCat_other (c c' : String) (e : String × ℚ)
    (hne : c' ≠ c) :
    ∀ acc, (alookup (pushCat acc c' e) c).getD [] =
      (alookup acc c).getD [] := by
  intro acc
  induction acc with
  | nil => simp [pushCat, alookup, hne]
  | cons a rest ih =>
    obtain ⟨c'', l⟩ := a
    rw [pushCat_cons]
    by_cases h : c'' = c'
    · subst h
      rw [if_pos rfl, alookup_cons, alookup_cons]
      by_cases h2 : c'' = c
      · exact absurd h2 hne
      · rw [if_neg h2, if_neg h2]
    · rw [if_neg h, alookup_cons, alookup_cons]
      by_cases h2 : c'' = c
      · rw [if_pos h2, if_pos h2]
      · rw [if_neg h2, if_neg h2]
        exact ih

theorem statsByCategory_fold (position c : String) :
    ∀ (bd : List (String × ℚ)) (acc : List (String × List (String × ℚ))),
      (alookup (bd.foldl (catStep position) acc) c).getD [] =
        (alookup acc c).getD [] ++ bd.filter (inCat position c) := by
  intro bd
  induction bd with
  | nil => intro acc; simp
  | cons e rest ih =>
    intro acc
    rw [List.foldl_cons, ih, List.filter_cons]
    cases hcfg : alookup STAT_CONFIG e.1 with
    | none =>
      have hstep : catStep position acc e = acc := by
        unfold catStep
        rw [hcfg]
      have hcat : inCat position c e = false := by
        unfold inCat
        rw [hcfg]
      rw [hstep, hcat]
      simp
    | some cfg =>
      by_cases happ : isApplicable cfg position
      · have hstep : catStep position acc e = pushCat acc cfg.category e := by
          simp [catStep, hcfg, happ]
        rw [hstep]
        by_cases hcat : cfg.category = c
        · subst hcat
          have hin : inCat position cfg.category e = true := by
            simp [inCat, hcfg, happ]
          rw [alookup_pushCat_same, hin]
          simp
        · have hin : inCat position c e = false := by
            simp [inCat, hcfg, happ, hcat]
          rw [alookup_pushCat_other c cfg.category e hcat, hin]
          simp
      · have hstep : catStep position acc e = acc := by
          simp [catStep, hcfg, happ]
        have hin : inCat position c e = false := by
          simp [inCat, hcfg, happ]
        rw [hstep, hin]
        simp

/-- C9 counterexample: the weekly card view truncates to the first 12
applicable entries, so with 13 classified QB-applicable passing keys the
13th — `passingCompletionYards` — satisfies the claim's membership
condition yet does not appear in that position-filtered view. -/
theorem weekCard_counterexample :
    ("passingCompletionYards", (1 : ℚ)) ∈
      ([("passingAttempts", 1), ("passingCompletions", 1),
        ("passingIncompletions", 1), ("passingYards", 1),
        ("passingTouchdowns", 1), ("passingInterceptions", 1),
        ("passing2PtConversions", 1), ("passingCompletionPercentage", 1),
        ("passing300To399YardGame", 1), ("passing400PlusYardGame", 1),
        ("passing40PlusYardTD", 1), ("passingTimesSacked", 1),
        ("passingCompletionYards", 1)] : List (String × ℚ)) ∧
    (∃ cfg, alookup STAT_CONFIG "passingCompletionYards" = some cfg ∧
      isApplicable cfg "QB" = true) ∧
    ("passingCompletionYards", (1 : ℚ)) ∉
      weekCardEntries
        [("passingAttempts", 1), ("passingCompletions", 1),
         ("passingIncompletions", 1), ("passingYards", 1),
         ("passingTouchdowns", 1), ("passingInterceptions", 1),
         ("passing2PtConversions", 1), ("passingCompletionPercentage", 1),
         ("passing300To399YardGame", 1), ("passing400PlusYardGame", 1),
         ("passing40PlusYardTD", 1), ("passingTimesSacked", 1),
         ("passingCompletionYards", 1)] "QB" := by
  refine ⟨by decide,
    ⟨mkCfg "Completion Yards" "CYDS" "passing" (some ["QB"]), by decide,
      by decide⟩, by decide⟩

/-- C9 amended: a breakdown key absent from `STAT_CONFIG` is silently
dropped from the categorized season view and from the weekly card view
while the raw breakdown keeps it; each category of the categorized view
holds exactly the breakdown entries (in order) whose key is classified
under that category and applicable to the position; the weekly card view
shows only classified, applicable entries of the breakdown, truncated to
the first 12. -/
theorem statClassification_spec (bd : List (String × ℚ)) (position : String) :
    (∀ c, (alookup (statsByCategory bd position) c).getD [] =
      bd.filter (inCat position c)) ∧
    (∀ k v, (k, v) ∈ weekCardEntries bd position →
      (k, v) ∈ bd ∧ ∃ cfg, alookup STAT_CONFIG k = some cfg ∧
        isApplicable cfg position = true) ∧
    (∀ k v, alookup STAT_CONFIG k = none →
      ((k, v) ∉ weekCardEntries bd position ∧
        ∀ c, (k, v) ∉ (alookup (statsByCategory bd position) c).getD [])) := by
  have hmem : ∀ k v, (k, v) ∈ weekCardEntries bd position →
      (k, v) ∈ bd ∧ ∃ cfg, alookup STAT_CONFIG k = some cfg ∧
        isApplicable cfg position = true := by
    intro k v hkv
    have hf := List.mem_of_mem_take hkv
    have hsplit := List.mem_filter.mp hf
    refine ⟨hsplit.1, ?_⟩
    have hguard := hsplit.2
    cases hcfg : alookup STAT_CONFIG k with
    | none =>
      rw [hcfg] at hguard
      cases hguard
    | some cfg =>
      rw [hcfg] at hguard
      exact ⟨cfg, rfl, hguard⟩
  refine ⟨?_, hmem, ?_⟩
  · intro c
    have h := statsByCategory_fold position c bd []
    simpa [statsByCategory, alookup] using h
  · intro k v hnone
    constructor
    · intro hkv
      rcases (hmem k v hkv).2 with ⟨cfg, hcfg, _⟩
      rw [hnone] at hcfg
      cases hcfg
    · intro c hkv
      have h := statsByCategory_fold position c bd []
      rw [show (alookup ([] : List (String × List (String × ℚ))) c).getD [] =
        [] from rfl, List.nil_append] at h
      rw [statsByCategory] at hkv
      rw [h] at hkv
      have hin := (List.mem_filter.mp hkv).2
      unfold inCat at hin
      rw [hnone] at hin
      cases hin

/-- Witness for C9's theorem: the unknown key `zzz` is dropped from the
weekly card view. -/
theorem statClassification_spec_witness :
    ("zzz", (1 : ℚ)) ∉ weekCardEntries [("zzz", 1)] "RB" :=
  ((statClassification_spec [("zzz", 1)] "RB").2.2 "zzz" 1 (by decide)).1

theorem find?_eq_some_split {α : Type} (p : α → Bool) :
    ∀ {l : List α} {a : α}, l.find? p = some a →
      ∃ pre post, l = pre ++ a :: post ∧ (∀ b ∈ pre, p b = false) ∧
        p a = true := by
  intro l
  induction l with
  | nil => intro a h; cases h
  | cons x xs ih =>
    intro a h
    by_cases hx : p x
    · rw [List.find?_cons_of_pos _ hx] at h
      cases h
      refine ⟨[], xs, rfl, ?_, hx⟩
      intro b hb
      cases hb
    · rw [List.find?_cons_of_neg _ (by simpa using hx)] at h
      rcases ih h with ⟨pre, post, rfl, hpre, hpa⟩
      refine ⟨x :: pre, post, rfl, ?_, hpa⟩
      intro b hb
      rcases List.mem_cons.mp hb with rfl | hb
      · simpa using hx
      · exact hpre b hb

theorem findPlayer_cons (team : String) (roster : List Player)
    (rest : List (String × List Player)) (pid : String) :
    findPlayer ((team, roster) :: rest) pid =
      match roster.find? (fun p => decide (toString p.playerId = pid)) with
      | some p => some (team, p)
      | none => findPlayer rest pid := rfl

theorem findPlayer_eq_none (pid : String) :
    ∀ rosters : List (String × List Player),
      findPlayer rosters pid = none ↔
        ∀ tr ∈ rosters, ∀ p ∈ tr.2, toString p.playerId ≠ pid := by
  intro rosters
  induction rosters with
  | nil => simp [findPlayer]
  | cons tp rest ih =>
    obtain ⟨team, roster⟩ := tp
    cases hf : roster.find? (fun p => decide (toString p.playerId = pid)) with
    | some p =>
      constructor
      · intro h
        rw [findPlayer_cons, hf] at h
        cases h
      · intro hall
        exfalso
        have hp := List.find?_some hf
        have hmem := List.mem_of_find?_eq_some hf
        exact hall (team, roster) (List.mem_cons_self _ _) p hmem
          (of_decide_eq_true hp)
    | none =>
      have hro : ∀ p ∈ roster, toString p.playerId ≠ pid := by
        intro p hp
        have h := List.find?_eq_none.mp hf p hp
        simpa using h
      constructor
      · intro h tr htr
        rcases List.mem_cons.mp htr with rfl | htr
        · exact hro
        · have h2 : findPlayer rest pid = none := by
            rw [findPlayer_cons, hf] at h
            exact h
          exact (ih.mp h2) tr htr
      · intro hall
        rw [findPlayer_cons, hf]
        exact ih.mpr (fun tr htr => hall tr (List.mem_cons_of_mem _ htr))

theorem findPlayer_eq_some (pid : String) :
    ∀ {rosters : List (String × List Player)} {team : String} {p : Player},
      findPlayer rosters pid = some (team, p) →
        ∃ pre roster post, rosters = pre ++ (team, roster) :: post ∧
          (∀ tr ∈ pre, ∀ q ∈ tr.2, toString q.playerId ≠ pid) ∧
          ∃ rpre rpost, roster = rpre ++ p :: rpost ∧
            (∀ q ∈ rpre, toString q.playerId ≠ pid) ∧
            toString p.playerId = pid := by
  intro rosters
  induction rosters with
  | nil => intro team p h; cases h
  | cons tp rest ih =>
    obtain ⟨t, roster⟩ := tp
    intro team p h
    cases hf : roster.find? (fun q => decide (toString q.playerId = pid)) with
    | some q =>
      rw [findPlayer_cons, hf] at h
      cases h
      rcases find?_eq_some_split _ hf with ⟨rpre, rpost, hsplit, hpre, hq⟩
      refine ⟨[], roster, rest, rfl, ?_, rpre, rpost, hsplit, ?_,
        of_decide_eq_true hq⟩
      · intro tr htr
        cases htr
      · intro b hb
        have hbf := hpre b hb
        simpa using hbf
    | none =>
      rw [findPlayer_cons, hf] at h
      rcases ih h with ⟨pre, roster2, post, hrs, hpre, hrest⟩
      refine ⟨(t, roster) :: pre, roster2, post,
        by rw [hrs, List.cons_append], ?_, hrest⟩
      intro tr htr
      rcases List.mem_cons.mp htr with rfl | htr
      · intro q hq
        have h2 := List.find?_eq_none.mp hf q hq
        simpa using h2
      · exact hpre tr htr

theorem renderPlayerPage_some (d : LeagueData) (pid : String) :
    renderPlayerPage (some d) pid =
      match findPlayer d.rosters pid with
      | none => PageResult.notFound
      | some (team, p) => PageResult.found team p (computeMetrics p) := rfl

/-- C10: when the requested id matches no player of any roster of the
stored snapshot — or no snapshot is stored — the page resolves to the
not-found state (which carries no metrics); when it matches, the page
resolves to the found state holding the first matching player in
roster-scan order (no earlier roster contains a match, and no earlier
player of the same roster matches), that roster's team name, and the
metrics derived from that player. -/
theorem playerPage_resolution :
    (∀ pid, renderPlayerPage none pid = PageResult.notFound) ∧
    (∀ d pid, renderPlayerPage (some d) pid = PageResult.notFound ↔
      ∀ tr ∈ d.rosters, ∀ p ∈ tr.2, toString p.playerId ≠ pid) ∧
    (∀ d pid team p, findPlayer d.rosters pid = some (team, p) →
      renderPlayerPage (some d) pid =
        PageResult.found team p (computeMetrics p) ∧
      ∃ pre roster post, d.rosters = pre ++ (team, roster) :: post ∧
        (∀ tr ∈ pre, ∀ q ∈ tr.2, toString q.playerId ≠ pid) ∧
        ∃ rpre rpost, roster = rpre ++ p :: rpost ∧
          (∀ q ∈ rpre, toString q.playerId ≠ pid) ∧
          toString p.playerId = pid) := by
  refine ⟨fun pid => rfl, ?_, ?_⟩
  · intro d pid
    constructor
    · intro h
      apply (findPlayer_eq_none pid d.rosters).mp
      cases hf : findPlayer d.rosters pid with
      | none => rfl
      | some tp =>
        obtain ⟨team, p⟩ := tp
        exfalso
        rw [renderPlayerPage_some, hf] at h
        exact PageResult.noConfusion h
    · intro hall
      have hf := (findPlayer_eq_none pid d.rosters).mpr hall
      rw [renderPlayerPage_some, hf]
  · intro d pid team p hf
    constructor
    · rw [renderPlayerPage_some, hf]
    · exact findPlayer_eq_some pid hf

/-- Witness for C10: a two-roster snapshot resolves id "8" to the second
roster's player. -/
theorem playerPage_resolution_witness :
    renderPlayerPage
        (some { leagueName := "L"
                leagueId := "123"
                rosters := [("Team A", [pBase]),
                            ("Team B", [{ pBase with
                                           name := "Player B"
                                           playerId := 8 }])] }) "8" =
      PageResult.found "Team B"
        { pBase with name := "Player B", playerId := 8 }
        (computeMetrics { pBase with name := "Player B", playerId := 8 }) :=
  (playerPage_resolution.2.2
    { leagueName := "L"
      leagueId := "123"
      rosters := [("Team A", [pBase]),
                  ("Team B", [{ pBase with
                                 name := "Player B"
                                 playerId := 8 }])] }
    "8" "Team B" { pBase with name := "Player B", playerId := 8 }
    (by decide)).1

end BetterFF
